import Mathlib

/-!
Verification development for the flint plugin execution engine.

Shallow embedding of the code in flint-core/src/util/plugin.rs,
flint-core/src/app/generate.rs and flint-core/src/widgets/logs.rs.

Modelling conventions:
- The Lua interpreter is abstracted at the observation points the engine
  uses: a script file is characterised by whether its top-level execution
  succeeds and which of the two relevant globals (Validate, Generate) it
  defines; a plugin function is a mathematical function from the config
  view it receives to a call result.
- Rust panics (expect / unwrap) are modelled as a distinct outcome
  constructor carrying a descriptive message: where the source supplies an
  expect message we reuse it verbatim; for bare unwraps the message is a
  descriptive tag chosen here.
- Filesystem writes are modelled as always succeeding (an association list
  from path to contents); the log store is modelled with its one-time
  initialisation flag, matching the OnceLock in widgets/logs.rs.
- A script whose top-level execution fails is modelled as defining no
  globals (a parse error executes nothing); this loses no observable
  behaviour of Plugin::run, since a failed load always ends in the same
  Err or panic regardless of partially created globals.
-/

namespace Flint

/-- Kinds of log entries, from flint-core/src/widgets/logs.rs. -/
inductive LogKind where
  | Info
  | Success
  | Error
  | Warn
  | Debug
deriving DecidableEq

/-- Metadata record of a plugin, from the PluginDetails struct in
flint-core/src/util/plugin.rs. -/
structure PluginDetails where
  id : String
  extensions : List String
  version : String
  author : String
  category : String
deriving DecidableEq

/-- Plugin value: details plus the filesystem path of its bundle,
from the Plugin struct in flint-core/src/util/plugin.rs. -/
structure Plugin where
  details : PluginDetails
  path : String
deriving DecidableEq

/-- Values of a TOML section. The engine never inspects the values of a
section, only looks sections up by key, so contents are kept as strings. -/
abbrev TomlTable := List (String × String)

/-- Modelled from the spec: the project configuration (the Config struct of
flint-core/src/util/toml.rs is not part of the provided sources; its
callers read exactly a common section and per-plugin sections keyed by
plugin id, called linters). The flint tool-metadata block is omitted: no
embedded operation reads it. -/
structure Config where
  common : TomlTable
  linters : List (String × TomlTable)

/-- Result values a plugin function may return, as seen through the mlua
conversions the engine applies. -/
inductive LuaVal where
  | boolean (b : Bool)
  | strMap (entries : List (String × String))
  | other
deriving DecidableEq

/-- Conversion of a Lua value to a boolean, as lua.from_value does for
bool: only an actual boolean converts. -/
def LuaVal.asBool? : LuaVal → Option Bool
  | .boolean b => some b
  | _ => none

/-- Conversion of a Lua value to a map from string to string, as
lua.from_value does for a HashMap of strings. -/
def LuaVal.asStrMap? : LuaVal → Option (List (String × String))
  | .strMap m => some m
  | _ => none

/-- Outcome of calling a plugin function: either the call raised a Lua
error, or it returned a value. -/
inductive CallResult where
  | err
  | ok (v : LuaVal)

/-- The config view handed to Validate and Generate: the per-plugin
section with the common section nested under the key common
(the table built by Plugin::run before the calls). -/
structure ConfigView where
  sect : TomlTable
  common : TomlTable

/-- Behaviour of a plugin script function on a given config view. -/
abbrev FnSpec := ConfigView → CallResult

/-- Abstraction of one Lua script file: whether loading and executing it
succeeds, and which of the two globals its execution defines. -/
structure ScriptFile where
  execOk : Bool
  defsValidate : Option FnSpec
  defsGenerate : Option FnSpec

/-- A plugin bundle on disk, as Plugin::run reads it: the contents of
generate.lua and validate.lua; none means the file cannot be read. -/
structure Bundle where
  generateLua : Option ScriptFile
  validateLua : Option ScriptFile

/-- Observable events during Plugin::run: a script top level executed, or
one of the two plugin functions was invoked. -/
inductive Event where
  | execScript (name : String)
  | calledValidate
  | calledGenerate
deriving DecidableEq

/-- Outcome of Plugin::run: the Ok map of generated files, the Err string
it returns, or a panic raised by an expect or unwrap. -/
inductive RunResult where
  | ok (files : List (String × String))
  | err (msg : String)
  | panic (msg : String)
deriving DecidableEq

/-- Embedding of Plugin::run from flint-core/src/util/plugin.rs: look up
the per-plugin config section (expect panics when absent), load
generate.lua then validate.lua into one interpreter (the Generate and
Validate globals are unwrapped right after each successful load), call
Validate, convert its result to a boolean, and only when it is true call
Generate and convert its result to a string map. Returns the outcome
paired with the trace of observable events. -/
def Plugin.run (p : Plugin) (toml : Config) (b : Bundle) :
    RunResult × List Event :=
  match List.lookup p.details.id toml.linters with
  | none => (.panic "unable to find config for a plugin", [])
  | some sec =>
    let view : ConfigView := { sect := sec, common := toml.common }
    match b.generateLua with
    | none => (.err "Error reading plugin code", [])
    | some gfile =>
      let gEvents : List Event :=
        if gfile.execOk then [.execScript "generate.lua"] else []
      if gfile.execOk ∧ gfile.defsGenerate.isNone then
        (.panic "Generate global is not a function", gEvents)
      else
        match b.validateLua with
        | none => (.err "Error reading plugin code", gEvents)
        | some vfile =>
          if vfile.execOk then
            let evs := gEvents ++ [.execScript "validate.lua"]
            let vlookup : Option FnSpec :=
              match vfile.defsValidate with
              | some f => some f
              | none => if gfile.execOk then gfile.defsValidate else none
            match vlookup with
            | none => (.panic "Validate global is not a function", evs)
            | some vfn =>
              let evs := evs ++ [.calledValidate]
              match vfn view with
              | .err => (.panic "error running validate function", evs)
              | .ok v =>
                match v.asBool? with
                | none =>
                  (.panic "unable to convert validation result to boolean",
                   evs)
                | some false =>
                  (.err "Plugin config validation failed", evs)
                | some true =>
                  match (if gfile.execOk then gfile.defsGenerate else none)
                    with
                  | none => (.panic "Error reading generate.lua", evs)
                  | some gfn =>
                    let evs := evs ++ [.calledGenerate]
                    match gfn view with
                    | .err => (.panic "error running generate function", evs)
                    | .ok w =>
                      match w.asStrMap? with
                      | none =>
                        (.panic
                          "unable to convert generation result to String",
                         evs)
                      | some files => (.ok files, evs)
          else
            (.panic "error reading validate.lua", gEvents)

/-- The global log store of flint-core/src/widgets/logs.rs: the OnceLock
LOGS is modelled by an initialisation flag plus the entry vector; an
uninitialised store has no vector, so its entries are empty. -/
structure LogStore where
  initialized : Bool
  entries : List (LogKind × String)
deriving DecidableEq

/-- Embedding of add_log: pushes the entry only when LOGS has already been
initialised (LOGS.get returns Some); otherwise the entry is dropped. -/
def add_log (s : LogStore) (k : LogKind) (m : String) : LogStore :=
  if s.initialized then { s with entries := s.entries ++ [(k, m)] } else s

/-- Embedding of get_logs: get_or_init initialises the store with an empty
vector on first call, then returns a read snapshot of the entries. -/
def get_logs (s : LogStore) : LogStore × List (LogKind × String) :=
  if s.initialized then (s, s.entries)
  else ({ initialized := true, entries := [] }, [])

/-- Embedding of clear_logs: clears the entries only when the store has
been initialised. -/
def clear_logs (s : LogStore) : LogStore :=
  if s.initialized then { s with entries := [] } else s

/-- Primitive effects performed by the closure a generation task runs in
GenerateWidget::setup: a filesystem write or an add_log call. -/
inductive Action where
  | writeFile (path contents : String)
  | logCall (kind : LogKind) (message : String)
deriving DecidableEq

/-- The success message of a task, from GenerateWidget::setup. -/
def successMessage (p : Plugin) : String :=
  "Generated " ++ p.details.id ++ " config successfully"

/-- Effects performed by the task closure of GenerateWidget::setup for a
given Plugin::run outcome: on Ok, one write per generated file followed by
one success log call; on Err, a single error log call; a panic unwinds the
worker before any effect. The iteration order of the Rust HashMap is
unspecified; the list order of the map stands in for it. -/
def taskActions (p : Plugin) : RunResult → List Action
  | .ok files =>
      files.map (fun pc => Action.writeFile pc.1 pc.2)
        ++ [Action.logCall LogKind.Success (successMessage p)]
  | .err msg => [Action.logCall LogKind.Error msg]
  | .panic _ => []

/-- Filesystem as an association list from path to contents. -/
abbrev FileSystem := List (String × String)

/-- Overwriting write of one file, as std::fs::write does (modelled as
always succeeding; the source unwraps a write error into a panic). -/
def fsWrite : FileSystem → String → String → FileSystem
  | [], path, c => [(path, c)]
  | (q, d) :: rest, path, c =>
      if q = path then (q, c) :: rest else (q, d) :: fsWrite rest path c

/-- State visible to a generation task: the filesystem and the log store. -/
structure EngineState where
  fs : FileSystem
  store : LogStore

/-- Application of one task effect to the engine state. -/
def applyAction (s : EngineState) : Action → EngineState
  | .writeFile path c => { s with fs := fsWrite s.fs path c }
  | .logCall k m => { s with store := add_log s.store k m }

/-- One generation task of GenerateWidget::setup, end to end: run the
plugin and apply its effects to the engine state. -/
def runTask (p : Plugin) (toml : Config) (b : Bundle) (s : EngineState) :
    EngineState :=
  (taskActions p (Plugin.run p toml b).1).foldl applyAction s

/-- Outcome of a computation that may panic. -/
inductive POutcome (α : Type) where
  | ok (a : α)
  | panic (msg : String)
deriving DecidableEq

/-- What executing the details.lua of one directory entry yields, at the
observation points of Plugin::list: the Details global is missing, the
Details call raises, the result does not convert, or it converts to a
PluginDetails value. -/
inductive DetailsOutcome where
  | missingGlobal
  | callErr
  | convErr
  | ok (details : PluginDetails)
deriving DecidableEq

/-- One directory entry of the lint plugins directory, as Plugin::list
observes it. -/
inductive EntryLoad where
  | entryErr (msg : String)
  | fileReadErr (path msg : String)
  | execErr (path msg : String)
  | execOk (path : String) (outcome : DetailsOutcome)
deriving DecidableEq

/-- The lint plugins directory, as Plugin::list observes it. -/
inductive DirAccess where
  | createErr (msg : String)
  | readDirErr (msg : String)
  | entries (es : List EntryLoad)
deriving DecidableEq

/-- Processing of one directory entry inside the filter_map of
Plugin::list: read/exec failures log an error and skip the entry; the
unwraps after a successful exec panic when the Details global is missing,
its call raises, or its result does not convert. -/
def processEntry : EntryLoad → List (LogKind × String) × POutcome (Option Plugin)
  | .entryErr msg =>
      ([(.Error, "Error reading directory entry: " ++ msg)], .ok none)
  | .fileReadErr path msg =>
      ([(.Error, "Error reading file " ++ path ++ ": " ++ msg)], .ok none)
  | .execErr path msg =>
      ([(.Error, "Error loading lua file " ++ path ++ ": " ++ msg)], .ok none)
  | .execOk _ .missingGlobal => ([], .panic "Details global is not a function")
  | .execOk _ .callErr => ([], .panic "error calling Details function")
  | .execOk _ .convErr =>
      ([], .panic "unable to convert Details result to PluginDetails")
  | .execOk path (.ok d) => ([], .ok (some { details := d, path := path }))

/-- Driving the filter_map plus collect of Plugin::list over the entries:
logs accumulate in entry order; the collected BTreeSet is modelled as a
Finset; a panic aborts the iteration. -/
def runEntries : List EntryLoad → List (LogKind × String) × POutcome (Finset Plugin)
  | [] => ([], .ok ∅)
  | e :: es =>
    match processEntry e with
    | (ls, .panic m) => (ls, .panic m)
    | (ls, .ok r) =>
      let (ls2, rest) := runEntries es
      (ls ++ ls2,
       match rest with
       | .panic m => .panic m
       | .ok s => .ok (match r with | none => s | some p => insert p s))

/-- Embedding of Plugin::list: directory-level failures log an error and
return none; otherwise the entries are scanned. The add_log calls made are
returned alongside the outcome (whether they land in the store depends on
its initialisation, see add_log). The source logs the read_dir failure
with the same create message, reproduced faithfully. -/
def Plugin.list : DirAccess → List (LogKind × String) × POutcome (Option (Finset Plugin))
  | .createErr msg =>
      ([(.Error, "Failed to create lint directory: " ++ msg)], .ok none)
  | .readDirErr msg =>
      ([(.Error, "Failed to create lint directory: " ++ msg)], .ok none)
  | .entries es =>
    match runEntries es with
    | (ls, .panic m) => (ls, .panic m)
    | (ls, .ok s) => (ls, .ok (some s))

/-- Insertion into one bucket of the extension map, as
m.entry(ext).or_insert_with(BTreeSet::new).insert(plugin) does; the
HashMap is modelled as an association list, each bucket a Finset. -/
def mapInsert : List (String × Finset Plugin) → String → Plugin →
    List (String × Finset Plugin)
  | [], ext, p => [(ext, {p})]
  | (k, s) :: rest, ext, p =>
      if k = ext then (k, insert p s) :: rest
      else (k, s) :: mapInsert rest ext p

/-- Embedding of the map construction in get_plugin_map: for each plugin
of the backing set (given here as its iteration sequence), insert it into
the bucket of each of its extensions. -/
def get_plugin_map (plugins : List Plugin) : List (String × Finset Plugin) :=
  plugins.foldl
    (fun m p => p.details.extensions.foldl (fun m2 ext => mapInsert m2 ext p) m)
    []

/-- Union of all buckets of the extension map, as the flat_map over
map.values() collected into a BTreeSet in GenerateWidget::setup. -/
def indexUnion (m : List (String × Finset Plugin)) : Finset Plugin :=
  m.foldl (fun acc kv => acc ∪ kv.2) ∅

/-- Section keys of the project configuration
(toml.linters.keys in GenerateWidget::setup). -/
def sectionKeys (toml : Config) : List String :=
  toml.linters.map Prod.fst

/-- Embedding of the plugin selection of GenerateWidget::setup: the
deduplicated union of all buckets, filtered to the plugins whose id is a
section key of the configuration. -/
def selectedPlugins (plugins : List Plugin) (toml : Config) : Finset Plugin :=
  (indexUnion (get_plugin_map plugins)).filter
    (fun p => p.details.id ∈ sectionKeys toml)

/-- An entry is benign when its exec outcome does not hit one of the
unwraps of Plugin::list (the panic-free cases). -/
def EntryLoad.benign : EntryLoad → Bool
  | .execOk _ .missingGlobal => false
  | .execOk _ .callErr => false
  | .execOk _ .convErr => false
  | _ => true

/-- An entry is a read or exec failure (the logged, skipped cases). -/
def EntryLoad.isFailure : EntryLoad → Bool
  | .entryErr _ => true
  | .fileReadErr _ _ => true
  | .execErr _ _ => true
  | .execOk _ _ => false

/-- Fixture: a well-formed plugin used in concrete checks. -/
def dEx : PluginDetails :=
  { id := "eslint", extensions := ["js"], version := "1.0"
    author := "a", category := "lint" }

/-- Fixture: the plugin value of dEx. -/
def pEx : Plugin := { details := dEx, path := "plugins/eslint" }

/-- Fixture: a configuration with a section for pEx. -/
def cfgEx : Config :=
  { common := [("lang", "js")], linters := [("eslint", [("on", "true")])] }

/-- Fixture: a configuration with no section for pEx. -/
def cfgNone : Config := { common := [], linters := [("other", [])] }

/-- Fixture: a Validate function returning true. -/
def vTrue : FnSpec := fun _ => .ok (.boolean true)

/-- Fixture: a Validate function returning false. -/
def vFalse : FnSpec := fun _ => .ok (.boolean false)

/-- Fixture: a Validate function whose call raises a Lua error. -/
def vRaise : FnSpec := fun _ => .err

/-- Fixture: a Generate function returning one file. -/
def gFiles : FnSpec := fun _ => .ok (.strMap [("x.conf", "abc")])

/-- Fixture: a split-layout bundle, generate.lua defining Generate and
validate.lua defining Validate (returning true). -/
def bSplit : Bundle :=
  { generateLua := some { execOk := true, defsValidate := none
                          defsGenerate := some gFiles }
    validateLua := some { execOk := true, defsValidate := some vTrue
                          defsGenerate := none } }

/-- Fixture: a split bundle whose Validate call raises. -/
def bRaise : Bundle :=
  { generateLua := some { execOk := true, defsValidate := none
                          defsGenerate := some gFiles }
    validateLua := some { execOk := true, defsValidate := some vRaise
                          defsGenerate := none } }

/-- Fixture: a bundle whose generate.lua fails to parse while validate.lua
is fine and validates successfully. -/
def bParseErr : Bundle :=
  { generateLua := some { execOk := false, defsValidate := none
                          defsGenerate := none }
    validateLua := some { execOk := true, defsValidate := some vTrue
                          defsGenerate := none } }

/-- Fixture: a combined-layout bundle, a single script defining both
functions, stored as generate.lua; there is no validate.lua file. -/
def bCombined : Bundle :=
  { generateLua := some { execOk := true, defsValidate := some vTrue
                          defsGenerate := some gFiles }
    validateLua := none }

/-- A split-layout bundle: generate.lua defines Generate, validate.lua
defines Validate. -/
def splitBundle (g v : FnSpec) : Bundle :=
  { generateLua := some { execOk := true, defsValidate := none
                          defsGenerate := some g }
    validateLua := some { execOk := true, defsValidate := some v
                          defsGenerate := none } }

/-- Fixture: an engine state with an initialised, empty log store. -/
def s0 : EngineState := { fs := [], store := { initialized := true, entries := [] } }

/-- Fixture: details of two discovered plugins sharing one id. -/
def dDupA : PluginDetails :=
  { id := "dup", extensions := ["js"], version := "1.0"
    author := "a", category := "lint" }

/-- Fixture: a second descriptor with the same id as dDupA. -/
def dDupB : PluginDetails :=
  { id := "dup", extensions := ["ts"], version := "2.0"
    author := "b", category := "lint" }

/-- Fixture: plugin value of dDupA. -/
def pDupA : Plugin := { details := dDupA, path := "pa" }

/-- Fixture: plugin value of dDupB. -/
def pDupB : Plugin := { details := dDupB, path := "pb" }

/-- Fixture: a plugin claiming no extensions. -/
def pNoExt : Plugin :=
  { details := { id := "noext", extensions := [], version := "1.0"
                 author := "a", category := "lint" }
    path := "pn" }

/-- Fixture: a configuration with sections for noext and eslint. -/
def cfgNoExt : Config :=
  { common := [], linters := [("noext", []), ("eslint", [])] }

/-- Membership in a left fold of bucket unions. -/
lemma mem_foldl_union (m : List (String × Finset Plugin)) (acc : Finset Plugin)
    (p : Plugin) :
    p ∈ m.foldl (fun a kv => a ∪ kv.2) acc ↔ p ∈ acc ∨ ∃ kv ∈ m, p ∈ kv.2 := by
  induction m generalizing acc with
  | nil => simp
  | cons kv rest ih =>
    simp only [List.foldl_cons, ih, Finset.mem_union, List.mem_cons]
    constructor
    · rintro (⟨h | h⟩ | ⟨kv2, h2, hp⟩)
      · exact Or.inl h
      · exact Or.inr ⟨kv, Or.inl rfl, h⟩
      · exact Or.inr ⟨kv2, Or.inr h2, hp⟩
    · rintro (h | ⟨kv2, (rfl | h2), hp⟩)
      · exact Or.inl (Or.inl h)
      · exact Or.inl (Or.inr hp)
      · exact Or.inr ⟨kv2, h2, hp⟩

/-- Every element of every bucket satisfies P, preserved by mapInsert. -/
lemma mapInsert_pred (P : String → Plugin → Prop) (ext : String) (q : Plugin)
    (hq : P ext q) :
    ∀ (m : List (String × Finset Plugin)),
      (∀ kv ∈ m, ∀ p ∈ kv.2, P kv.1 p) →
      ∀ kv ∈ mapInsert m ext q, ∀ p ∈ kv.2, P kv.1 p := by
  intro m
  induction m with
  | nil =>
    intro _ kv hkv p hp
    simp only [mapInsert, List.mem_singleton] at hkv
    subst hkv
    simp only [Finset.mem_singleton] at hp
    subst hp
    exact hq
  | cons kv0 rest ih =>
    obtain ⟨k0, s0⟩ := kv0
    intro hm kv hkv p hp
    by_cases hk : k0 = ext
    · subst hk
      simp only [mapInsert, if_pos rfl] at hkv
      rcases List.mem_cons.mp hkv with rfl | h2
      · simp only at hp ⊢
        rcases Finset.mem_insert.mp hp with rfl | hps
        · exact hq
        · exact hm (k0, s0) (List.mem_cons_self _ _) p hps
      · exact hm kv (List.mem_cons_of_mem _ h2) p hp
    · simp only [mapInsert, if_neg hk] at hkv
      rcases List.mem_cons.mp hkv with rfl | h2
      · exact hm (k0, s0) (List.mem_cons_self _ _) p hp
      · exact ih (fun kv2 h => hm kv2 (List.mem_cons_of_mem _ h)) kv h2 p hp

/-- The bucket invariant is preserved by inserting one plugin across a
list of extensions. -/
lemma foldl_mapInsert_pred (P : String → Plugin → Prop) (q : Plugin) :
    ∀ (exts : List String) (m : List (String × Finset Plugin)),
      (∀ kv ∈ m, ∀ p ∈ kv.2, P kv.1 p) →
      (∀ e ∈ exts, P e q) →
      ∀ kv ∈ exts.foldl (fun m2 ext => mapInsert m2 ext q) m,
        ∀ p ∈ kv.2, P kv.1 p := by
  intro exts
  induction exts with
  | nil => intro m hm _; simpa using hm
  | cons e rest ih =>
    intro m hm hq
    simp only [List.foldl_cons]
    exact ih _ (mapInsert_pred P e q (hq e (List.mem_cons_self _ _)) m hm)
      (fun e2 h2 => hq e2 (List.mem_cons_of_mem _ h2))

/-- The bucket invariant holds across a left fold over a plugin list. -/
lemma foldl_plugins_pred (P : String → Plugin → Prop) :
    ∀ (ps : List Plugin) (m : List (String × Finset Plugin)),
      (∀ kv ∈ m, ∀ p ∈ kv.2, P kv.1 p) →
      (∀ q ∈ ps, ∀ e ∈ q.details.extensions, P e q) →
      ∀ kv ∈ ps.foldl
        (fun m2 p => p.details.extensions.foldl
          (fun m3 ext => mapInsert m3 ext p) m2) m,
        ∀ p ∈ kv.2, P kv.1 p := by
  intro ps
  induction ps with
  | nil => intro m hm _; simpa using hm
  | cons q rest ih =>
    intro m hm hq
    simp only [List.foldl_cons]
    exact ih _
      (foldl_mapInsert_pred P q q.details.extensions m hm
        (hq q (List.mem_cons_self _ _)))
      (fun q2 h2 => hq q2 (List.mem_cons_of_mem _ h2))

/-- The bucket invariant holds of the whole extension map build. -/
lemma get_plugin_map_pred (P : String → Plugin → Prop) (ps : List Plugin)
    (hps : ∀ q ∈ ps, ∀ e ∈ q.details.extensions, P e q) :
    ∀ kv ∈ get_plugin_map ps, ∀ p ∈ kv.2, P kv.1 p :=
  foldl_plugins_pred P ps [] (by simp) hps

/-- Characterisation of bucket membership: a plugin in the bucket of key k
is one of the backing plugins and claims k among its extensions. -/
lemma mem_bucket (ps : List Plugin) (kv : String × Finset Plugin)
    (hkv : kv ∈ get_plugin_map ps) (p : Plugin) (hp : p ∈ kv.2) :
    p ∈ ps ∧ kv.1 ∈ p.details.extensions :=
  get_plugin_map_pred (fun k q => q ∈ ps ∧ k ∈ q.details.extensions) ps
    (fun _ hq _ he => ⟨hq, he⟩) kv hkv p hp

/-- Claim C7: the set of plugins selected for generation equals the
deduplicated union of all plugins across the extension index, filtered to
exactly those plugins whose id appears as a per-plugin section key in the
project configuration; no other plugin is run. -/
theorem selected_eq_filtered_union (ps : List Plugin) (toml : Config)
    (p : Plugin) :
    p ∈ selectedPlugins ps toml ↔
      (∃ kv ∈ get_plugin_map ps, p ∈ kv.2) ∧
        p.details.id ∈ sectionKeys toml := by
  unfold selectedPlugins indexUnion
  rw [Finset.mem_filter, mem_foldl_union]
  simp

/-- Claim C8, counterexample: a registry built from two bundles whose
descriptors share the id dup but differ in version yields a backing set
containing two distinct Plugins with the same id; nothing in Plugin::list
deduplicates by id. -/
theorem backing_set_same_id_counterexample :
    (Plugin.list (.entries [.execOk "pa" (.ok dDupA), .execOk "pb" (.ok dDupB)])).2
        = POutcome.ok (some {pDupA, pDupB})
      ∧ pDupA ∈ ({pDupA, pDupB} : Finset Plugin)
      ∧ pDupB ∈ ({pDupA, pDupB} : Finset Plugin)
      ∧ pDupA ≠ pDupB
      ∧ pDupA.details.id = pDupB.details.id := by
  decide

/-- Claim C8 as amended: every Plugin stored in any extension-index bucket
is a member of the backing plugin set; the backing set deduplicates by the
full (details, path) value, not by id, so two distinct Plugins may share
an id. -/
theorem bucket_member_in_backing_set (ps : List Plugin)
    (kv : String × Finset Plugin) (hkv : kv ∈ get_plugin_map ps)
    (p : Plugin) (hp : p ∈ kv.2) :
    p ∈ ps :=
  (mem_bucket ps kv hkv p hp).1

/-- Witness for the amended claim C8 at a concrete registry. -/
theorem bucket_member_in_backing_set_witness :
    ("js", ({pDupA} : Finset Plugin)) ∈ get_plugin_map [pDupA]
      ∧ pDupA ∈ ({pDupA} : Finset Plugin)
      ∧ pDupA ∈ [pDupA] :=
  ⟨by decide, by decide,
   bucket_member_in_backing_set [pDupA] ("js", {pDupA}) (by decide) pDupA
     (by decide)⟩

/-- Claim C9: a discovered plugin whose descriptor has an empty extensions
list never appears in any bucket of the extension index and is never
selected for generation, even when the project configuration contains a
section keyed by its id. -/
theorem empty_extensions_never_selected (ps : List Plugin) (toml : Config)
    (p : Plugin) (hext : p.details.extensions = [])
    (hid : p.details.id ∈ sectionKeys toml) :
    (∀ kv ∈ get_plugin_map ps, p ∉ kv.2) ∧ p ∉ selectedPlugins ps toml := by
  have hb : ∀ kv ∈ get_plugin_map ps, p ∉ kv.2 := by
    intro kv hkv hp
    have h2 := (mem_bucket ps kv hkv p hp).2
    rw [hext] at h2
    exact List.not_mem_nil _ h2
  refine ⟨hb, fun hsel => ?_⟩
  unfold selectedPlugins indexUnion at hsel
  have h1 := (Finset.mem_filter.mp hsel).1
  rw [mem_foldl_union] at h1
  rcases h1 with h | ⟨kv, hkv, hp⟩
  · exact absurd h (Finset.not_mem_empty p)
  · exact hb kv hkv hp

/-- Witness for claim C9 at a concrete registry and configuration. -/
theorem empty_extensions_never_selected_witness :
    pNoExt.details.extensions = []
      ∧ pNoExt.details.id ∈ sectionKeys cfgNoExt
      ∧ pNoExt ∉ selectedPlugins [pNoExt, pEx] cfgNoExt :=
  ⟨rfl, by decide,
   (empty_extensions_never_selected [pNoExt, pEx] cfgNoExt pNoExt rfl
     (by decide)).2⟩

/-- Claim C6, counterexample: a directory entry whose Details result fails
to convert to a PluginDetails makes Plugin::list panic (the unwrap at the
conversion), aborting the whole scan; the valid candidate pb that follows
is not collected, and registry construction fails outright. -/
theorem discovery_conversion_aborts_scan :
    Plugin.list (.entries [.execOk "pa" .convErr, .execOk "pb" (.ok dDupB)])
      = ([], .panic "unable to convert Details result to PluginDetails") := by
  decide

/-- Claim C6 as amended: every failure to read a directory entry, to read
its details script, or to execute that script is logged as an error and
skips exactly that one candidate; the scan never aborts on those failures
and the remaining valid candidates are all collected. (Failures of the
Details global lookup, of the Details call, or of the conversion of its
result panic instead, see the counterexample.) -/
theorem discovery_failures_skip_only (es : List EntryLoad)
    (h : ∀ e ∈ es, e.benign = true) :
    ∃ S, (runEntries es).2 = POutcome.ok S
      ∧ (∀ p : Plugin, p ∈ S ↔ EntryLoad.execOk p.path (.ok p.details) ∈ es)
      ∧ (runEntries es).1.length = (es.filter EntryLoad.isFailure).length
      ∧ ∀ l ∈ (runEntries es).1, l.1 = LogKind.Error := by
  induction es with
  | nil =>
    exact ⟨∅, rfl, by simp [runEntries], by simp [runEntries],
      by simp [runEntries]⟩
  | cons e rest ih =>
    obtain ⟨S, hS, hmem, hlen, hkind⟩ :=
      ih (fun e2 h2 => h e2 (List.mem_cons_of_mem _ h2))
    rcases hrE : runEntries rest with ⟨ls2, r2⟩
    rw [hrE] at hS hlen hkind
    simp only at hS hlen hkind
    subst hS
    cases e with
    | entryErr msg =>
      refine ⟨S, ?_, ?_, ?_, ?_⟩
      · simp [runEntries, processEntry, hrE]
      · intro p
        simp [hmem p]
      · simp [runEntries, processEntry, hrE, EntryLoad.isFailure, hlen]
      · intro l hl
        simp only [runEntries, processEntry, hrE] at hl
        rcases List.mem_cons.mp hl with rfl | h2
        · rfl
        · exact hkind l h2
    | fileReadErr path msg =>
      refine ⟨S, ?_, ?_, ?_, ?_⟩
      · simp [runEntries, processEntry, hrE]
      · intro p
        simp [hmem p]
      · simp [runEntries, processEntry, hrE, EntryLoad.isFailure, hlen]
      · intro l hl
        simp only [runEntries, processEntry, hrE] at hl
        rcases List.mem_cons.mp hl with rfl | h2
        · rfl
        · exact hkind l h2
    | execErr path msg =>
      refine ⟨S, ?_, ?_, ?_, ?_⟩
      · simp [runEntries, processEntry, hrE]
      · intro p
        simp [hmem p]
      · simp [runEntries, processEntry, hrE, EntryLoad.isFailure, hlen]
      · intro l hl
        simp only [runEntries, processEntry, hrE] at hl
        rcases List.mem_cons.mp hl with rfl | h2
        · rfl
        · exact hkind l h2
    | execOk path outcome =>
      have hben := h _ (List.mem_cons_self _ _)
      cases outcome with
      | missingGlobal => simp [EntryLoad.benign] at hben
      | callErr => simp [EntryLoad.benign] at hben
      | convErr => simp [EntryLoad.benign] at hben
      | ok d =>
        refine ⟨insert { details := d, path := path } S, ?_, ?_, ?_, ?_⟩
        · simp [runEntries, processEntry, hrE]
        · intro p
          rw [Finset.mem_insert]
          simp only [List.mem_cons, hmem p]
          constructor
          · rintro (rfl | h2)
            · exact Or.inl rfl
            · exact Or.inr h2
          · rintro (heq | h2)
            · cases p
              simp only [EntryLoad.execOk.injEq, DetailsOutcome.ok.injEq] at heq
              left
              simp [heq.1, heq.2]
            · exact Or.inr h2
        · simp [runEntries, processEntry, hrE, EntryLoad.isFailure, hlen]
        · intro l hl
          simp only [runEntries, processEntry, hrE, List.nil_append] at hl
          exact hkind l hl

/-- Witness for the amended claim C6 at a concrete scan containing one
unreadable entry and one valid entry. -/
theorem discovery_failures_skip_only_witness :
    (∀ e ∈ [EntryLoad.fileReadErr "px" "no such file",
            EntryLoad.execOk "pa" (.ok dDupA)], e.benign = true)
      ∧ ∃ S,
        (runEntries [EntryLoad.fileReadErr "px" "no such file",
                     EntryLoad.execOk "pa" (.ok dDupA)]).2 = POutcome.ok S
        ∧ (∀ p : Plugin, p ∈ S ↔
            EntryLoad.execOk p.path (.ok p.details)
              ∈ [EntryLoad.fileReadErr "px" "no such file",
                 EntryLoad.execOk "pa" (.ok dDupA)])
        ∧ (runEntries [EntryLoad.fileReadErr "px" "no such file",
                       EntryLoad.execOk "pa" (.ok dDupA)]).1.length
            = ([EntryLoad.fileReadErr "px" "no such file",
                EntryLoad.execOk "pa" (.ok dDupA)].filter
                EntryLoad.isFailure).length
        ∧ ∀ l ∈ (runEntries [EntryLoad.fileReadErr "px" "no such file",
                             EntryLoad.execOk "pa" (.ok dDupA)]).1,
            l.1 = LogKind.Error :=
  ⟨by decide, discovery_failures_skip_only _ (by decide)⟩

/-- Claim C1, counterexample: when the Validate call raises a Lua error,
Plugin::run panics (the expect on the call result) instead of returning an
Err; the task does not fail with a validation-failed outcome. -/
theorem validate_call_failure_panics :
    Plugin.run pEx cfgEx bRaise
      = (RunResult.panic "error running validate function",
         [Event.execScript "generate.lua", Event.execScript "validate.lua",
          Event.calledValidate]) := rfl

/-- Claim C1 as amended: when the value returned by Validate converts to
false, Plugin::run returns Err with the validation-failed message and
Generate is never invoked; when the Validate call raises, or its result
does not convert to a boolean, Plugin::run panics, and Generate is still
never invoked. -/
theorem validate_gate (p : Plugin) (toml : Config) (sec : TomlTable)
    (g v : FnSpec)
    (hsec : List.lookup p.details.id toml.linters = some sec) :
    (∀ w, v { sect := sec, common := toml.common } = CallResult.ok w →
      w.asBool? = some false →
      Plugin.run p toml (splitBundle g v)
        = (RunResult.err "Plugin config validation failed",
           [.execScript "generate.lua", .execScript "validate.lua",
            .calledValidate])
        ∧ Event.calledGenerate ∉ (Plugin.run p toml (splitBundle g v)).2)
    ∧ (v { sect := sec, common := toml.common } = CallResult.err →
      Plugin.run p toml (splitBundle g v)
        = (RunResult.panic "error running validate function",
           [.execScript "generate.lua", .execScript "validate.lua",
            .calledValidate])
        ∧ Event.calledGenerate ∉ (Plugin.run p toml (splitBundle g v)).2)
    ∧ (∀ w, v { sect := sec, common := toml.common } = CallResult.ok w →
      w.asBool? = none →
      Plugin.run p toml (splitBundle g v)
        = (RunResult.panic "unable to convert validation result to boolean",
           [.execScript "generate.lua", .execScript "validate.lua",
            .calledValidate])
        ∧ Event.calledGenerate ∉ (Plugin.run p toml (splitBundle g v)).2) := by
  refine ⟨?_, ?_, ?_⟩
  · intro w hw hb
    have he : Plugin.run p toml (splitBundle g v)
        = (RunResult.err "Plugin config validation failed",
           [.execScript "generate.lua", .execScript "validate.lua",
            .calledValidate]) := by
      simp [Plugin.run, splitBundle, hsec, hw, hb]
    exact ⟨he, by rw [he]; decide⟩
  · intro hw
    have he : Plugin.run p toml (splitBundle g v)
        = (RunResult.panic "error running validate function",
           [.execScript "generate.lua", .execScript "validate.lua",
            .calledValidate]) := by
      simp [Plugin.run, splitBundle, hsec, hw]
    exact ⟨he, by rw [he]; decide⟩
  · intro w hw hb
    have he : Plugin.run p toml (splitBundle g v)
        = (RunResult.panic "unable to convert validation result to boolean",
           [.execScript "generate.lua", .execScript "validate.lua",
            .calledValidate]) := by
      simp [Plugin.run, splitBundle, hsec, hw, hb]
    exact ⟨he, by rw [he]; decide⟩

/-- Witness for the amended claim C1: a concrete plugin whose Validate
returns false ends in the validation-failed Err without Generate being
invoked. -/
theorem validate_gate_witness :
    Plugin.run pEx cfgEx (splitBundle gFiles vFalse)
        = (RunResult.err "Plugin config validation failed",
           [Event.execScript "generate.lua", Event.execScript "validate.lua",
            Event.calledValidate])
      ∧ Event.calledGenerate
          ∉ (Plugin.run pEx cfgEx (splitBundle gFiles vFalse)).2 :=
  (validate_gate pEx cfgEx [("on", "true")] gFiles vFalse (by decide)).1
    (LuaVal.boolean false) rfl rfl

/-- Claim C3, counterexample: a configuration lacking the per-plugin
section makes Plugin::run panic (the expect on the section lookup) rather
than fail with a per-task missing-configuration error; no file write and
no log call occurs. -/
theorem missing_section_panics_counterexample :
    Plugin.run pEx cfgNone bSplit
        = (RunResult.panic "unable to find config for a plugin", [])
      ∧ taskActions pEx (Plugin.run pEx cfgNone bSplit).1 = [] :=
  ⟨rfl, rfl⟩

/-- Claim C3 as amended: for every configuration lacking the per-plugin
section of the plugin being run, Plugin::run panics with the
missing-configuration expect message before loading any script, and the
task performs zero file writes and zero log calls. -/
theorem missing_section_panics (p : Plugin) (toml : Config) (b : Bundle)
    (hsec : List.lookup p.details.id toml.linters = none) :
    Plugin.run p toml b
        = (RunResult.panic "unable to find config for a plugin", [])
      ∧ taskActions p (Plugin.run p toml b).1 = [] := by
  have he : Plugin.run p toml b
      = (RunResult.panic "unable to find config for a plugin", []) := by
    simp [Plugin.run, hsec]
  exact ⟨he, by rw [he]; rfl⟩

/-- Witness for the amended claim C3 at a concrete plugin and config. -/
theorem missing_section_panics_witness :
    List.lookup pEx.details.id cfgNone.linters = none
      ∧ Plugin.run pEx cfgNone bCombined
          = (RunResult.panic "unable to find config for a plugin", []) :=
  ⟨by decide, (missing_section_panics pEx cfgNone bCombined (by decide)).1⟩

/-- Claim C4, counterexample: a bundle in the combined layout (one script
defining both Validate and Generate, no separate validate script) is not
loadable: Plugin::run unconditionally reads validate.lua and fails with
the read error, so the functions of the bundle are never found or run. -/
theorem combined_layout_unsupported_counterexample :
    Plugin.run pEx cfgEx bCombined
      = (RunResult.err "Error reading plugin code",
         [Event.execScript "generate.lua"]) := rfl

/-- Claim C4 as amended: only the split layout is supported: a bundle with
a validate.lua defining Validate and a generate.lua defining Generate has
both functions found and runnable; a bundle consisting of a single script
(either file absent) fails with the plugin-code read error instead. -/
theorem bundle_layouts (p : Plugin) (toml : Config) (sec : TomlTable)
    (g v : FnSpec) (m : List (String × String))
    (hsec : List.lookup p.details.id toml.linters = some sec)
    (hv : v { sect := sec, common := toml.common }
        = CallResult.ok (LuaVal.boolean true))
    (hg : g { sect := sec, common := toml.common }
        = CallResult.ok (LuaVal.strMap m)) :
    Plugin.run p toml (splitBundle g v)
        = (RunResult.ok m,
           [.execScript "generate.lua", .execScript "validate.lua",
            .calledValidate, .calledGenerate])
      ∧ (∀ sf : ScriptFile,
          Plugin.run p toml { generateLua := none, validateLua := some sf }
            = (RunResult.err "Error reading plugin code", []))
      ∧ (∀ (dv : Option FnSpec) (g2 : FnSpec),
          Plugin.run p toml
            { generateLua := some { execOk := true, defsValidate := dv
                                    defsGenerate := some g2 }
              validateLua := none }
            = (RunResult.err "Error reading plugin code",
               [Event.execScript "generate.lua"])) := by
  refine ⟨?_, ?_, ?_⟩
  · simp [Plugin.run, splitBundle, hsec, hv, hg, LuaVal.asBool?,
      LuaVal.asStrMap?]
  · intro sf
    simp [Plugin.run, hsec]
  · intro dv g2
    simp [Plugin.run, hsec]

/-- Witness for the amended claim C4: a concrete split bundle runs both
functions to completion. -/
theorem bundle_layouts_witness :
    Plugin.run pEx cfgEx (splitBundle gFiles vTrue)
      = (RunResult.ok [("x.conf", "abc")],
         [Event.execScript "generate.lua", Event.execScript "validate.lua",
          Event.calledValidate, Event.calledGenerate]) :=
  (bundle_layouts pEx cfgEx [("on", "true")] gFiles vTrue [("x.conf", "abc")]
    (by decide) rfl rfl).1

/-- Claim C5, counterexample: a generate.lua that fails to parse does not
produce the unreadable-plugin-code Err: Plugin::run goes on to load and
execute validate.lua and invoke Validate, and only then panics on the
expect of the generate load result. -/
theorem parse_failure_panics_counterexample :
    Plugin.run pEx cfgEx bParseErr
      = (RunResult.panic "Error reading generate.lua",
         [Event.execScript "validate.lua", Event.calledValidate]) := rfl

/-- Claim C5 as amended: when a script file of the bundle cannot be read,
Plugin::run returns the plugin-code read Err rather than panicking: an
unreadable generate.lua short-circuits before any script executes, while
an unreadable validate.lua short-circuits only after generate.lua has
already been executed. (A script that reads but fails to parse is not
covered: it leads to a later panic, see the counterexample.) -/
theorem unreadable_script_errs (p : Plugin) (toml : Config) (sec : TomlTable)
    (hsec : List.lookup p.details.id toml.linters = some sec) :
    (∀ b : Bundle, b.generateLua = none →
      Plugin.run p toml b = (RunResult.err "Error reading plugin code", []))
    ∧ (∀ (dv : Option FnSpec) (g : FnSpec),
        Plugin.run p toml
          { generateLua := some { execOk := true, defsValidate := dv
                                  defsGenerate := some g }
            validateLua := none }
          = (RunResult.err "Error reading plugin code",
             [Event.execScript "generate.lua"])) := by
  constructor
  · intro b hb
    rcases b with ⟨bg, bv⟩
    simp only at hb
    subst hb
    simp [Plugin.run, hsec]
  · intro dv g
    simp [Plugin.run, hsec]

/-- Witness for the amended claim C5 at a concrete unreadable bundle. -/
theorem unreadable_script_errs_witness :
    Plugin.run pEx cfgEx { generateLua := none, validateLua := none }
      = (RunResult.err "Error reading plugin code", []) :=
  (unreadable_script_errs pEx cfgEx [("on", "true")] (by decide)).1
    { generateLua := none, validateLua := none } rfl

/-- Claim C10: before the first get_logs call initialises the global
store, add_log is a silent no-op: the state is unchanged and the entry
never appears in the log returned once get_logs does initialise it. -/
theorem add_log_noop_before_init (s : LogStore) (k : LogKind) (m : String)
    (h : s.initialized = false) :
    add_log s k m = s ∧ (get_logs (add_log s k m)).2 = [] := by
  constructor
  · simp [add_log, h]
  · simp [add_log, get_logs, h]

/-- Witness for claim C10 at a concrete uninitialised store. -/
theorem add_log_noop_before_init_witness :
    ({ initialized := false, entries := [] } : LogStore).initialized = false
      ∧ add_log { initialized := false, entries := [] } LogKind.Info "hello"
          = { initialized := false, entries := [] }
      ∧ (get_logs (add_log { initialized := false, entries := [] }
            LogKind.Info "hello")).2 = [] :=
  ⟨rfl, (add_log_noop_before_init _ LogKind.Info "hello" rfl).1,
   (add_log_noop_before_init _ LogKind.Info "hello" rfl).2⟩

/-- Lookup after a write of the same path returns the written contents. -/
lemma lookup_fsWrite_self (path c : String) :
    ∀ fs : FileSystem, List.lookup path (fsWrite fs path c) = some c := by
  intro fs
  induction fs with
  | nil => simp [fsWrite, List.lookup]
  | cons qd rest ih =>
    obtain ⟨q, d⟩ := qd
    by_cases h : q = path
    · subst h
      simp [fsWrite, List.lookup]
    · have hb : (path == q) = false := by
        simp [Ne.symm h]
      simp [fsWrite, h, List.lookup, hb, ih]

/-- Lookup of a different path is unchanged by a write. -/
lemma lookup_fsWrite_ne (q path c : String) (hq : q ≠ path) :
    ∀ fs : FileSystem,
      List.lookup q (fsWrite fs path c) = List.lookup q fs := by
  intro fs
  induction fs with
  | nil =>
    have hb : (q == path) = false := by simp [hq]
    simp [fsWrite, List.lookup, hb]
  | cons kd rest ih =>
    obtain ⟨k, d⟩ := kd
    by_cases h : k = path
    · subst h
      have hb : (q == k) = false := by simp [hq]
      simp [fsWrite, List.lookup, hb]
    · simp [fsWrite, h, List.lookup, ih]

/-- A fold of writes to other paths leaves a lookup unchanged. -/
lemma lookup_foldl_writes_not_mem (path : String)
    (files : List (String × String)) (hnm : path ∉ files.map Prod.fst) :
    ∀ f0 : FileSystem,
      List.lookup path (files.foldl (fun f pr => fsWrite f pr.1 pr.2) f0)
        = List.lookup path f0 := by
  induction files with
  | nil => intro _; rfl
  | cons pr rest ih =>
    intro f0
    simp only [List.map_cons, List.mem_cons] at hnm
    push_neg at hnm
    simp only [List.foldl_cons]
    rw [ih hnm.2, lookup_fsWrite_ne path pr.1 pr.2 hnm.1]

/-- After folding the writes of a duplicate-free file map, every pair is
readable back byte for byte. -/
lemma lookup_foldl_writes (files : List (String × String))
    (hnd : (files.map Prod.fst).Nodup) (pc : String × String)
    (hpc : pc ∈ files) :
    ∀ f0 : FileSystem,
      List.lookup pc.1 (files.foldl (fun f pr => fsWrite f pr.1 pr.2) f0)
        = some pc.2 := by
  induction files with
  | nil => cases hpc
  | cons pr rest ih =>
    intro f0
    simp only [List.map_cons, List.nodup_cons] at hnd
    simp only [List.foldl_cons]
    rcases List.mem_cons.mp hpc with rfl | h2
    · rw [lookup_foldl_writes_not_mem pc.1 rest hnd.1, lookup_fsWrite_self]
    · exact ih hnd.2 h2 _

/-- A fold of write actions only changes the filesystem component. -/
lemma foldl_applyAction_writes (files : List (String × String)) :
    ∀ s : EngineState,
      (files.map (fun pc => Action.writeFile pc.1 pc.2)).foldl applyAction s
        = { fs := files.foldl (fun f pr => fsWrite f pr.1 pr.2) s.fs
            store := s.store } := by
  induction files with
  | nil => intro _; rfl
  | cons pr rest ih =>
    intro s
    simp only [List.map_cons, List.foldl_cons]
    rw [ih]
    rfl

/-- Claim C2: for a task whose Plugin::run returns Ok, the engine performs
one write per (path, contents) pair followed by exactly one success log
call naming the plugin id (so all writes precede the success entry); every
pair is written byte for byte, and with an initialised store exactly that
one success entry is appended. For a task whose run returns Err, exactly
one error entry carrying the failure description is appended and the
filesystem is untouched. -/
theorem generate_task_effects (p : Plugin) (toml : Config) (b : Bundle)
    (files : List (String × String)) (msg : String) (s : EngineState) :
    ((Plugin.run p toml b).1 = RunResult.ok files →
      s.store.initialized = true →
      (files.map Prod.fst).Nodup →
      taskActions p (Plugin.run p toml b).1
          = files.map (fun pc => Action.writeFile pc.1 pc.2)
            ++ [Action.logCall LogKind.Success (successMessage p)]
        ∧ (∀ pc ∈ files,
            List.lookup pc.1 (runTask p toml b s).fs = some pc.2)
        ∧ (runTask p toml b s).store.entries
            = s.store.entries ++ [(LogKind.Success, successMessage p)])
    ∧ ((Plugin.run p toml b).1 = RunResult.err msg →
      s.store.initialized = true →
      (runTask p toml b s).store.entries
          = s.store.entries ++ [(LogKind.Error, msg)]
        ∧ (runTask p toml b s).fs = s.fs) := by
  constructor
  · intro hok hinit hnd
    have hacts : taskActions p (Plugin.run p toml b).1
        = files.map (fun pc => Action.writeFile pc.1 pc.2)
          ++ [Action.logCall LogKind.Success (successMessage p)] := by
      rw [hok]
      rfl
    have hfold : runTask p toml b s
        = applyAction
            ((files.map (fun pc => Action.writeFile pc.1 pc.2)).foldl
              applyAction s)
            (Action.logCall LogKind.Success (successMessage p)) := by
      rw [runTask, hacts, List.foldl_append]
      rfl
    rw [foldl_applyAction_writes] at hfold
    refine ⟨hacts, ?_, ?_⟩
    · intro pc hpc
      rw [hfold]
      simp only [applyAction]
      exact lookup_foldl_writes files hnd pc hpc s.fs
    · rw [hfold]
      simp [applyAction, add_log, hinit]
  · intro herr hinit
    have hacts : taskActions p (Plugin.run p toml b).1
        = [Action.logCall LogKind.Error msg] := by
      rw [herr]
      rfl
    have hrt : runTask p toml b s
        = applyAction s (Action.logCall LogKind.Error msg) := by
      rw [runTask, hacts]
      rfl
    rw [hrt]
    exact ⟨by simp [applyAction, add_log, hinit], rfl⟩

/-- Witness for claim C2 at a concrete successful task. -/
theorem generate_task_effects_witness :
    (Plugin.run pEx cfgEx bSplit).1 = RunResult.ok [("x.conf", "abc")]
      ∧ (∀ pc ∈ [(("x.conf" : String), ("abc" : String))],
          List.lookup pc.1 (runTask pEx cfgEx bSplit s0).fs = some pc.2)
      ∧ (runTask pEx cfgEx bSplit s0).store.entries
          = [(LogKind.Success, successMessage pEx)] := by
  have h := (generate_task_effects pEx cfgEx bSplit [("x.conf", "abc")] ""
    s0).1 rfl rfl (by decide)
  exact ⟨rfl, h.2.1, by simpa [s0] using h.2.2⟩

end Flint
